import Mathlib

/-!
Verification of the livekit/deploy-action agent lifecycle plugin.

The development shallowly embeds the program's pure decision logic:

* the agent descriptor model of `config.go` (`LiveKitTOML`, `AgentTOML`,
  `NewLiveKitTOML`, `WithDefaultAgent`, `SaveTOMLFile`, `LoadTOMLFile`,
  `ExtractSubdomain`);
* the secret collection, operation dispatch and subdomain derivation of
  `main` in main.go;
* the `createAgent` control flow and the status aggregation loop of
  `agentStatus` in main.go.

File-system and remote effects are modelled by explicit state values and
result oracles: a descriptor file is a `DiskFile`, the TOML library's
encode/decode pair is modelled at its interface by the `TomlDoc` record,
and each fallible remote step of `createAgent` is an `Except`/`Bool`
field of `CreateEnv`.
-/

namespace DeployAction

/-- One regional deployment of an agent as returned by `ListAgents`
(`livekit.AgentDeployment`); only its `Status` label is consulted. -/
structure AgentDeployment where
  status : String
  deriving DecidableEq, Repr

/-- One agent record returned by `ListAgents` (`livekit.Agent`); the
program only reads its `AgentDeployments` slice. -/
structure Agent where
  agentDeployments : List AgentDeployment
  deriving DecidableEq, Repr

/-- `LiveKitTOMLProjectConfig` of config.go: the `[project]` table. -/
structure LiveKitTOMLProjectConfig where
  subdomain : String
  deriving DecidableEq, Repr

/-- `LiveKitTOMLAgentConfig` of config.go: the `[agent]` table.  The Go
zero value has `ID = ""` and `Regions = nil`, modelled as `[]`. -/
structure LiveKitTOMLAgentConfig where
  id : String
  regions : List String
  deriving DecidableEq, Repr

/-- `LiveKitTOML` of config.go: the agent descriptor.  Both tables are
pointers in Go, so `none` models a nil pointer. -/
structure LiveKitTOML where
  project : Option LiveKitTOMLProjectConfig
  agent : Option LiveKitTOMLAgentConfig
  deriving DecidableEq, Repr

/-- Legacy flat-schema descriptor `AgentTOML` of config.go
(top-level `project_subdomain` and `regions` keys). -/
structure AgentTOML where
  projectSubdomain : String
  regions : List String
  deriving DecidableEq, Repr

/-- `NewLiveKitTOML` of config.go. -/
def NewLiveKitTOML (forSubdomain : String) : LiveKitTOML :=
  { project := some { subdomain := forSubdomain }, agent := none }

/-- `(*LiveKitTOML).WithDefaultAgent` of config.go: installs the Go zero
value `&LiveKitTOMLAgentConfig{}`. -/
def LiveKitTOML.withDefaultAgent (c : LiveKitTOML) : LiveKitTOML :=
  { c with agent := some { id := "", regions := [] } }

/-- Interface model of the TOML document written and read through the
external toml library: exactly the keys the program's two schemas bind.
A `none` field models an absent table/key.  The old-schema decode of a
document with absent flat keys yields the Go zero values, see
`decodeOld`. -/
structure TomlDoc where
  project : Option LiveKitTOMLProjectConfig
  agent : Option LiveKitTOMLAgentConfig
  flatProjectSubdomain : Option String
  flatRegions : Option (List String)
  deriving DecidableEq, Repr

/-- Decoding a parsed document into the legacy `AgentTOML` schema:
absent keys produce Go zero values (`""`, nil slice). -/
def decodeOld (doc : TomlDoc) : AgentTOML :=
  { projectSubdomain := doc.flatProjectSubdomain.getD ""
  , regions := doc.flatRegions.getD [] }

/-- State of `<dir>/livekit.toml` as observed through `os.Stat` and
`toml.DecodeFile`. `unreadable` covers the cases where `Stat` succeeds
but `DecodeFile` fails outright (unreadable file or invalid TOML), in
which case the `config` pointer in `LoadTOMLFile` is still nil. -/
inductive DiskFile where
  | absent
  | statFailure
  | unreadable
  | parsed (doc : TomlDoc)
  deriving DecidableEq, Repr

/-- Observable result of `LoadTOMLFile` in config.go:
`ok config existed` is a return of `(config, existed, nil)`;
`errReturn existed` is a return of `(_, existed, err)` with a non-nil
error; `nilDeref` is the nil-pointer dereference of `config.Project`
reached when `DecodeFile` fails and leaves `config` nil. -/
inductive LoadResult where
  | ok (config : LiveKitTOML) (existed : Bool)
  | errReturn (existed : Bool)
  | nilDeref
  deriving DecidableEq, Repr

/-- `LoadTOMLFile` of config.go (lines 275-304), one branch per source
branch: a missing file returns the `os.Stat` error (`fs.ErrNotExist`)
together with `configExists = false`; any other `Stat` failure returns
that error with `configExists = true`; a failed decode leaves `config`
nil and the subsequent `config.Project` access panics; a decoded
document without a `[project]` table is re-decoded as the legacy
schema, its subdomain copied and the agent table replaced by the zero
value (legacy regions are dropped by the source). -/
def LoadTOMLFile (file : DiskFile) : LoadResult :=
  match file with
  | .absent => .errReturn false
  | .statFailure => .errReturn true
  | .unreadable => .nilDeref
  | .parsed doc =>
    match doc.project with
    | some p => .ok { project := some p, agent := doc.agent } true
    | none =>
      .ok { project := some { subdomain := (decodeOld doc).projectSubdomain }
          , agent := some { id := "", regions := [] } } true

/-- `(*LiveKitTOML).SaveTOMLFile` of config.go, at the toml-library
interface: encodes exactly the two schema tables, writing no legacy
keys. -/
def SaveTOMLFile (c : LiveKitTOML) : DiskFile :=
  .parsed { project := c.project, agent := c.agent
          , flatProjectSubdomain := none, flatRegions := none }

/-- `ExtractSubdomain` of config.go: the regex
`^(?:https?|wss?)://([^.]+)\.` applied to `url`; the captured group is
the non-empty run of non-dot characters between the scheme and the
first following dot, or `""` when the pattern does not match. -/
def ExtractSubdomain (url : String) : String :=
  match ["https://", "http://", "wss://", "ws://"].find?
      (fun s => s.data.isPrefixOf url.data) with
  | none => ""
  | some scheme =>
    let rest := url.data.drop scheme.data.length
    let label := rest.takeWhile (fun c => c != '.')
    if 0 < label.length ∧ label.length < rest.length then String.mk label else ""

/-- `livekit.AgentSecret` as the program fills it: a name and a value
(Go stores the value as `[]byte(secretValue)`). -/
structure AgentSecret where
  name : String
  value : String
  deriving DecidableEq, Repr

/-- Source A secret collection of `main` (main.go lines 56-84).  The
process environment is a list of `(name, value)` pairs; `os.Environ`
presents each as the string `name ++ "=" ++ value`, and the loop works
on that raw string: the `SECRET_` prefix test, the comparison of the
*whole* entry against `"SECRET_LIST"`, `strings.TrimPrefix`, and
`strings.SplitN(_, "=", 2)` whose two parts are the text before the
first `=` and the remainder. -/
def collectPrefixedSecrets (environ : List (String × String)) : List AgentSecret :=
  environ.filterMap fun nv =>
    let env := (nv.1 ++ "=" ++ nv.2).data
    if "SECRET_".data.isPrefixOf env then
      if env = "SECRET_LIST".data then none
      else
        let rest := env.drop 7
        let name := rest.takeWhile (fun c => c != '=')
        some { name := String.mk name
             , value := String.mk (rest.drop (name.length + 1)) }
    else none

/-- Source A as the specification words it: every variable whose *name*
carries the `SECRET_` prefix, the prefix stripped, the sentinel
variable `SECRET_LIST` itself always excluded.  Stated for comparison
with `collectPrefixedSecrets`. -/
def sourceASpec (environ : List (String × String)) : List AgentSecret :=
  environ.filterMap fun nv =>
    if "SECRET_".data.isPrefixOf nv.1.data && nv.1 != "SECRET_LIST" then
      some { name := String.mk (nv.1.data.drop 7), value := nv.2 }
    else none

/-- `strings.Split(s, sep)` for a one-character separator, on the
character list of the string: full split, `[""]` on the empty string. -/
def splitAll (sep : Char) : List Char → List (List Char)
  | [] => [[]]
  | c :: cs =>
    match splitAll sep cs with
    | [] => [[c]]
    | a :: tl => if c = sep then [] :: a :: tl else (c :: a) :: tl

/-- The subdomain actually computed in `main` (main.go line 125):
`strings.Split(lkUrl, ".")[0]`, i.e. everything before the first dot,
scheme included. -/
def mainSubdomain (lkUrl : String) : String :=
  match splitAll '.' lkUrl.data with
  | [] => ""
  | s :: _ => String.mk s

/-- `strings.SplitN(s, sep, 2)` for a one-character separator: one part
when the separator is absent, otherwise the text before the first
separator and the remainder after it. -/
def splitN2 (sep : Char) (s : List Char) : List (List Char) :=
  let pre := s.takeWhile (fun c => c != sep)
  if pre.length = s.length then [s] else [pre, s.drop (pre.length + 1)]

/-- The loop body over the comma-separated `SECRET_LIST` entries
(main.go lines 101-115): each entry is `SplitN` on `=`; when the split
does not yield exactly two parts the program logs and `os.Exit(1)`s,
modelled by `Except.error`; otherwise the name/value secret is
appended. -/
def secretListEntries : List (List Char) → Except Unit (List AgentSecret)
  | [] => .ok []
  | s :: rest =>
    match splitN2 '=' s with
    | [n, v] =>
      (secretListEntries rest).map
        (fun tl => { name := String.mk n, value := String.mk v } :: tl)
    | _ => .error ()

/-- The `SECRET_LIST` handling of `main` (main.go lines 99-116): skipped
entirely when the variable is empty, otherwise the value is split on
`,` and each entry processed by `secretListEntries`; an error means the
process exits before any client call, so no secret set is passed
onward. -/
def collectSecretListSecrets (v : List Char) : Except Unit (List AgentSecret) :=
  if v = [] then .ok []
  else secretListEntries (splitAll ',' v)

/-- Outcome of the operation dispatch in `main` (main.go lines 43-47
and 131-141). -/
inductive Dispatch where
  | fatalMissing
  | create
  | deploy
  | status
  | fatalInvalid
  deriving DecidableEq, Repr

/-- The dispatch itself: an empty `INPUT_OPERATION` exits fatally
before anything else; the switch recognizes exactly `create`, `deploy`
and `status`; every other string hits the default arm and exits
fatally. -/
def dispatchOperation (operation : String) : Dispatch :=
  if operation = "" then .fatalMissing
  else if operation = "create" then .create
  else if operation = "deploy" then .deploy
  else if operation = "status" then .status
  else .fatalInvalid

/-- Whether a dispatch outcome is a fatal `os.Exit(1)` rather than a
handler invocation. -/
def dispatchFatal : Dispatch → Bool
  | .fatalMissing => true
  | .fatalInvalid => true
  | _ => false

/-- The response of the remote `CreateAgent` call used by
`createAgent`. -/
structure CreateAgentResponse where
  agentId : String
  presignedUrl : String
  deriving DecidableEq, Repr

/-- Result oracle for the fallible steps `createAgent` drives: the
remote `CreateAgent` call, `SaveTOMLFile`, `UploadTarball` and
`Build`.  Each field fixes whether the corresponding step would
succeed. -/
structure CreateEnv where
  createResult : Except Unit CreateAgentResponse
  saveOk : Bool
  uploadOk : Bool
  buildOk : Bool
  deriving Repr

/-- Observable outcome of one `createAgent` run: the process exit code,
the descriptor file left in the working directory, and whether the
remote client was contacted. -/
structure CreateOutcome where
  exitCode : Nat
  descriptorFile : Option LiveKitTOML
  remoteCalled : Bool
  deriving DecidableEq, Repr

/-- `createAgent` of main.go (lines 246-287).  `existing` is the
descriptor file currently in the working directory (`os.Stat` on
`livekit.toml` succeeding iff it is `some`): when present the function
logs and `os.Exit(0)`s before building a request; otherwise it builds
`NewLiveKitTOML(subdomain).WithDefaultAgent()`, calls the remote
create, writes the returned id into the descriptor, saves it, uploads
the tarball and triggers the build, exiting 1 at the first failing
step. -/
def createAgent (subdomain : String) (existing : Option LiveKitTOML)
    (env : CreateEnv) : CreateOutcome :=
  match existing with
  | some cfg => { exitCode := 0, descriptorFile := some cfg, remoteCalled := false }
  | none =>
    match env.createResult with
    | .error _ => { exitCode := 1, descriptorFile := none, remoteCalled := true }
    | .ok resp =>
      let base := (NewLiveKitTOML subdomain).withDefaultAgent
      let lkConfig := { base with agent := base.agent.map (fun a => { a with id := resp.agentId }) }
      if !env.saveOk then
        { exitCode := 1, descriptorFile := none, remoteCalled := true }
      else if !env.uploadOk then
        { exitCode := 1, descriptorFile := some lkConfig, remoteCalled := true }
      else if !env.buildOk then
        { exitCode := 1, descriptorFile := some lkConfig, remoteCalled := true }
      else
        { exitCode := 0, descriptorFile := some lkConfig, remoteCalled := true }

/-- Outcome of `agentStatus` once a non-error `ListAgents` response is
in hand (main.go lines 186-201): `agentNotFound` is the empty-response
exit 1; `notRunning` is the unhealthy exit 1 reached after calling
`sendSlackNotification` with the given message; `statusReport` is the
healthy exit 0 that logs the given status label; `indexPanic` is the
out-of-range access `res.Agents[0].AgentDeployments[0]` on the success
path. -/
inductive StatusOutcome where
  | agentNotFound
  | notRunning (message : String)
  | statusReport (status : String)
  | indexPanic
  deriving DecidableEq, Repr

/-- The double loop of `agentStatus` (main.go lines 191-199): true iff
some regional deployment of some returned agent has a status label
other than `"Running"`; the loop exits the process at the first such
deployment. -/
def anyDeploymentNotRunning (agents : List Agent) : Bool :=
  agents.any fun agent => agent.agentDeployments.any fun d => d.status != "Running"

/-- The decision part of `agentStatus` of main.go (lines 186-201),
applied to the agent id loaded from the descriptor and the agent list
of a non-error `ListAgents` response: empty list exits 1; any
deployment whose status differs from `"Running"` notifies and exits 1;
otherwise the status of the first agent's first regional deployment is
reported, an access that panics when that agent has no deployments. -/
def agentStatus (agentId : String) (agents : List Agent) : StatusOutcome :=
  if agents.length = 0 then .agentNotFound
  else if anyDeploymentNotRunning agents then
    .notRunning ("Agent " ++ agentId ++ " is not running")
  else
    match agents with
    | [] => .agentNotFound
    | agent :: _ =>
      match agent.agentDeployments with
      | [] => .indexPanic
      | d :: _ => .statusReport d.status

/-- Whether a status outcome involves a call to
`sendSlackNotification`: exactly the unhealthy branch does. -/
def notificationAttempted : StatusOutcome → Bool
  | .notRunning _ => true
  | _ => false

/-- Process exit code of a status outcome; `none` models the abnormal
termination of a Go runtime panic. -/
def statusExitCode : StatusOutcome → Option Nat
  | .agentNotFound => some 1
  | .notRunning _ => some 1
  | .statusReport _ => some 0
  | .indexPanic => none

/-! ## Helper lemmas -/

/-- The status loop flag is set exactly when some returned agent has a
regional deployment whose status label differs from `"Running"`. -/
theorem anyDeploymentNotRunning_iff (agents : List Agent) :
    anyDeploymentNotRunning agents = true ↔
      ∃ agent ∈ agents, ∃ d ∈ agent.agentDeployments, d.status ≠ "Running" := by
  simp [anyDeploymentNotRunning, List.any_eq_true, bne_iff_ne]

/-- `takeWhile` on the negated-equality predicate keeps a list free of
the separator intact. -/
theorem takeWhile_ne_eq_self {sep : Char} {s : List Char} (h : sep ∉ s) :
    s.takeWhile (fun c => c != sep) = s := by
  induction s with
  | nil => rfl
  | cons c cs ih =>
    have hc : (c != sep) = true := by
      simp only [bne_iff_ne, ne_eq]
      intro e
      exact h (e ▸ List.mem_cons_self c cs)
    rw [List.takeWhile_cons, hc]
    simp [ih (fun hm => h (List.mem_cons_of_mem c hm))]

/-- `SplitN(s, "=", 2)` yields a single part exactly on entries without
the separator. -/
theorem splitN2_eq_single {s : List Char} (h : '=' ∉ s) : splitN2 '=' s = [s] := by
  unfold splitN2
  rw [takeWhile_ne_eq_self h]
  simp

/-- The `SECRET_LIST` entry loop fails as a whole as soon as the list
holds one entry without a separator. -/
theorem secretListEntries_error {l : List (List Char)} {entry : List Char}
    (hmem : entry ∈ l) (hbad : '=' ∉ entry) :
    secretListEntries l = .error () := by
  induction l with
  | nil => cases hmem
  | cons s rest ih =>
    rcases List.mem_cons.mp hmem with heq | hmem2
    · subst heq
      rw [secretListEntries, splitN2_eq_single hbad]
    · have hr := ih hmem2
      rw [secretListEntries]
      cases hsp : splitN2 '=' s with
      | nil => rfl
      | cons p tl =>
        cases tl with
        | nil => rfl
        | cons q tl2 =>
          cases tl2 with
          | nil => rw [hr]; rfl
          | cons r tl3 => rfl

/-! ## Claim theorems -/

/-- C1: for a non-error agent list with at least one agent (whose first
agent exposes at least one regional deployment, the shape presupposed
by the success report), the verdict is unhealthy — notification
attempted, exit failure — exactly when some regional deployment of some
returned agent has a status label other than `"Running"`; when every
deployment is `"Running"` no notification is attempted, the operation
exits 0, and the reported status is that of the first regional
deployment of the first agent. -/
theorem c1_status_aggregation (agentId : String) (a : Agent) (rest : List Agent)
    (d : AgentDeployment) (ds : List AgentDeployment)
    (hd : a.agentDeployments = d :: ds) :
    ((∃ ag ∈ a :: rest, ∃ dep ∈ ag.agentDeployments, dep.status ≠ "Running") ↔
        notificationAttempted (agentStatus agentId (a :: rest)) = true ∧
          statusExitCode (agentStatus agentId (a :: rest)) = some 1) ∧
    ((∀ ag ∈ a :: rest, ∀ dep ∈ ag.agentDeployments, dep.status = "Running") →
        agentStatus agentId (a :: rest) = .statusReport d.status ∧
          notificationAttempted (agentStatus agentId (a :: rest)) = false ∧
          statusExitCode (agentStatus agentId (a :: rest)) = some 0) := by
  by_cases h : anyDeploymentNotRunning (a :: rest) = true
  · have hst : agentStatus agentId (a :: rest) =
        .notRunning ("Agent " ++ agentId ++ " is not running") := by
      simp [agentStatus, h]
    refine ⟨⟨fun _ => ?_, fun _ => (anyDeploymentNotRunning_iff _).mp h⟩, fun hall => ?_⟩
    · rw [hst]; exact ⟨rfl, rfl⟩
    · exfalso
      obtain ⟨ag, hag, dep, hdep, hne⟩ := (anyDeploymentNotRunning_iff _).mp h
      exact hne (hall ag hag dep hdep)
  · have hfalse : anyDeploymentNotRunning (a :: rest) = false := by
      simpa using h
    have hst : agentStatus agentId (a :: rest) = .statusReport d.status := by
      simp [agentStatus, hfalse, hd]
    refine ⟨⟨fun hex => absurd ((anyDeploymentNotRunning_iff _).mpr hex) h, ?_⟩, fun _ => ?_⟩
    · rintro ⟨hnotif, -⟩
      rw [hst] at hnotif
      exact absurd hnotif (by simp [notificationAttempted])
    · exact ⟨hst, by rw [hst]; rfl, by rw [hst]; rfl⟩

/-- C1 witness: one agent with one `"Running"` deployment is healthy
and reports that status. -/
theorem c1_status_aggregation_witness :
    agentStatus "AG_1" [⟨[⟨"Running"⟩]⟩] = .statusReport "Running" ∧
    notificationAttempted (agentStatus "AG_1" [⟨[⟨"Running"⟩]⟩]) = false :=
  have h := (c1_status_aggregation "AG_1" ⟨[⟨"Running"⟩]⟩ [] ⟨"Running"⟩ [] rfl).2
    (by
      intro ag hag dep hdep
      simp at hag
      subst hag
      simp at hdep
      subst hdep
      rfl)
  ⟨h.1, h.2.1⟩

/-- C2 counterexample: the operation string `"status-retry"` is not
dispatched to a handler; it hits the default arm and exits fatally,
refuting the claim that the program accepts four operations. -/
theorem c2_status_retry_rejected :
    dispatchOperation "status-retry" = .fatalInvalid ∧
    dispatchFatal (dispatchOperation "status-retry") = true := by
  exact ⟨by decide, by decide⟩

/-- C2 (amended): the program accepts exactly the three operations
`create`, `deploy` and `status`, dispatching each to its handler, and
exits fatally when the operation is absent or any other string —
including `"status-retry"`. -/
theorem c2_dispatch_amended (op : String) :
    (dispatchOperation op = .create ↔ op = "create") ∧
    (dispatchOperation op = .deploy ↔ op = "deploy") ∧
    (dispatchOperation op = .status ↔ op = "status") ∧
    (dispatchFatal (dispatchOperation op) = true ↔
      op ≠ "create" ∧ op ≠ "deploy" ∧ op ≠ "status") := by
  unfold dispatchOperation
  by_cases h0 : op = ""
  · subst h0; decide
  · rw [if_neg h0]
    by_cases h1 : op = "create"
    · subst h1; decide
    · rw [if_neg h1]
      by_cases h2 : op = "deploy"
      · subst h2; decide
      · rw [if_neg h2]
        by_cases h3 : op = "status"
        · subst h3; decide
        · rw [if_neg h3]
          simp [dispatchFatal, h1, h2, h3]

/-- C3: `create` on a working directory that already holds a descriptor
exits 0 without contacting the remote client and leaves the descriptor
unchanged; consequently a second `create` after a successful first one
makes no remote call, exits 0, and leaves the descriptor the first run
wrote. -/
theorem c3_create_idempotent (subdomain : String) (env1 env2 : CreateEnv) :
    (∀ cfg : LiveKitTOML,
        createAgent subdomain (some cfg) env1 =
          { exitCode := 0, descriptorFile := some cfg, remoteCalled := false }) ∧
    ((createAgent subdomain none env1).exitCode = 0 →
        (createAgent subdomain (createAgent subdomain none env1).descriptorFile env2).remoteCalled
            = false ∧
          (createAgent subdomain (createAgent subdomain none env1).descriptorFile env2).exitCode
            = 0 ∧
          (createAgent subdomain (createAgent subdomain none env1).descriptorFile env2).descriptorFile
            = (createAgent subdomain none env1).descriptorFile) := by
  constructor
  · intro cfg
    rfl
  · intro h0
    obtain ⟨cres, sOk, uOk, bOk⟩ := env1
    cases cres with
    | error e => simp [createAgent] at h0
    | ok resp =>
      cases sOk with
      | false => simp [createAgent] at h0
      | true =>
        cases uOk with
        | false => simp [createAgent] at h0
        | true =>
          cases bOk with
          | false => simp [createAgent] at h0
          | true => exact ⟨rfl, rfl, rfl⟩

/-- C3 witness: a concrete successful first create, then a second
create that short-circuits. -/
theorem c3_create_idempotent_witness :
    (createAgent "sub" none ⟨.ok ⟨"AG_1", "u1"⟩, true, true, true⟩).exitCode = 0 ∧
    (createAgent "sub"
        (createAgent "sub" none ⟨.ok ⟨"AG_1", "u1"⟩, true, true, true⟩).descriptorFile
        ⟨.ok ⟨"AG_2", "u2"⟩, true, true, true⟩).remoteCalled = false :=
  ⟨rfl,
    ((c3_create_idempotent "sub" ⟨.ok ⟨"AG_1", "u1"⟩, true, true, true⟩
        ⟨.ok ⟨"AG_2", "u2"⟩, true, true, true⟩).2 rfl).1⟩

/-- C4: evaluated at its two failure shapes, `LoadTOMLFile` diverges
from the claim: a missing descriptor file returns `existed = false`
together with the non-nil `os.Stat` error (not a nil error and an empty
descriptor), and a file that exists but cannot be read or parsed leaves
the `config` pointer nil and crashes on `config.Project` instead of
returning an error. -/
theorem c4_load_descriptor_divergence :
    LoadTOMLFile .absent = .errReturn false ∧
    LoadTOMLFile .unreadable = .nilDeref :=
  ⟨rfl, rfl⟩

/-- C5: with the environment variable `SECRET_LIST=FOO=bar` present,
the Source A loop of `main` produces the secret `LIST = "FOO=bar"`
because its guard compares the whole `NAME=VALUE` entry against the
bare string `"SECRET_LIST"`, while the claimed collection (sentinel
always excluded) produces nothing. -/
theorem c5_secret_list_not_excluded :
    collectPrefixedSecrets [("SECRET_LIST", "FOO=bar")] =
      [{ name := "LIST", value := "FOO=bar" }] ∧
    sourceASpec [("SECRET_LIST", "FOO=bar")] = [] :=
  ⟨rfl, rfl⟩

/-- C6: a non-empty `SECRET_LIST` in which some comma-separated entry
lacks a `=` separator makes the invocation fail fatally before any
client call, passing no secret set onward. -/
theorem c6_malformed_secret_list_fatal (v : List Char) (hne : v ≠ [])
    (hbad : ∃ entry ∈ splitAll ',' v, '=' ∉ entry) :
    collectSecretListSecrets v = .error () := by
  obtain ⟨entry, hmem, hsep⟩ := hbad
  unfold collectSecretListSecrets
  rw [if_neg hne]
  exact secretListEntries_error hmem hsep

/-- C6 witness: the one-entry list `A` (no separator) is rejected. -/
theorem c6_malformed_secret_list_fatal_witness :
    collectSecretListSecrets "A".data = .error () :=
  c6_malformed_secret_list_fatal "A".data (by decide) ⟨"A".data, by decide, by decide⟩

/-- C7: for the control-plane URL `wss://myproject.livekit.cloud`,
`main` records `strings.Split(lkUrl, ".")[0] = "wss://myproject"` — a
string containing the scheme — as the descriptor's subdomain at
creation, whereas the host label preceding the first dot after the
scheme (computed by the unused `ExtractSubdomain` of config.go) is
`"myproject"`. -/
theorem c7_subdomain_records_scheme :
    mainSubdomain "wss://myproject.livekit.cloud" = "wss://myproject" ∧
    ExtractSubdomain "wss://myproject.livekit.cloud" = "myproject" ∧
    (createAgent (mainSubdomain "wss://myproject.livekit.cloud") none
        ⟨.ok ⟨"AG_123", "https://upload.example"⟩, true, true, true⟩).descriptorFile
      = some { project := some { subdomain := "wss://myproject" }
             , agent := some { id := "AG_123", regions := [] } } := by
  refine ⟨by decide, by decide, by decide⟩

/-- C8: a legacy-shaped descriptor file — no nested tables, flat
`project_subdomain`/`regions` keys — loads without error into a
descriptor whose `agent.id` is the empty string and whose
`project.subdomain` is the legacy field's value. -/
theorem c8_legacy_migration (doc : TomlDoc) (v : String) (rs : List String)
    (hproj : doc.project = none) (_hagent : doc.agent = none)
    (hflat : doc.flatProjectSubdomain = some v) (_hregions : doc.flatRegions = some rs) :
    LoadTOMLFile (.parsed doc) =
      .ok { project := some { subdomain := v }
          , agent := some { id := "", regions := [] } } true := by
  simp [LoadTOMLFile, decodeOld, hproj, hflat]

/-- C8 witness: a concrete legacy document. -/
theorem c8_legacy_migration_witness :
    LoadTOMLFile (.parsed { project := none, agent := none
                          , flatProjectSubdomain := some "my-subdomain"
                          , flatRegions := some ["us-east"] }) =
      .ok { project := some { subdomain := "my-subdomain" }
          , agent := some { id := "", regions := [] } } true :=
  c8_legacy_migration _ "my-subdomain" ["us-east"] rfl rfl rfl rfl

/-- C9: saving a descriptor that carries both its tables and loading it
back from the same directory yields an equal descriptor, with
`existed = true` and no error, for any id, subdomain and region list
(the empty list included). -/
theorem c9_save_load_roundtrip (c : LiveKitTOML) (p : LiveKitTOMLProjectConfig)
    (a : LiveKitTOMLAgentConfig) (hp : c.project = some p) (ha : c.agent = some a) :
    LoadTOMLFile (SaveTOMLFile c) = .ok c true := by
  cases c with
  | mk proj ag => simp_all [SaveTOMLFile, LoadTOMLFile]

/-- C9 witness: a concrete descriptor with an empty region list
round-trips. -/
theorem c9_save_load_roundtrip_witness :
    LoadTOMLFile (SaveTOMLFile { project := some { subdomain := "sub" }
                               , agent := some { id := "AG_1", regions := [] } }) =
      .ok { project := some { subdomain := "sub" }
          , agent := some { id := "AG_1", regions := [] } } true :=
  c9_save_load_roundtrip _ _ _ rfl rfl

/-- C10: when every deployment of every returned agent is `"Running"`
but the first agent has no regional deployments, the aggregation is
vacuously healthy, yet the success report's unguarded indexing
`res.Agents[0].AgentDeployments[0]` is out of range, so the operation
ends in a runtime panic rather than the success exit. -/
theorem c10_vacuous_healthy_panics (agentId : String) (a : Agent) (rest : List Agent)
    (hempty : a.agentDeployments = [])
    (hall : ∀ ag ∈ a :: rest, ∀ dep ∈ ag.agentDeployments, dep.status = "Running") :
    anyDeploymentNotRunning (a :: rest) = false ∧
    agentStatus agentId (a :: rest) = .indexPanic ∧
    statusExitCode (agentStatus agentId (a :: rest)) = none := by
  have hfalse : anyDeploymentNotRunning (a :: rest) = false := by
    rw [Bool.eq_false_iff]
    intro htrue
    obtain ⟨ag, hag, dep, hdep, hne⟩ := (anyDeploymentNotRunning_iff _).mp htrue
    exact hne (hall ag hag dep hdep)
  have hst : agentStatus agentId (a :: rest) = .indexPanic := by
    simp [agentStatus, hfalse, hempty]
  exact ⟨hfalse, hst, by rw [hst]; rfl⟩

/-- C10 witness: the single returned agent has zero regional
deployments. -/
theorem c10_vacuous_healthy_panics_witness :
    agentStatus "AG_1" [⟨[]⟩] = .indexPanic ∧
    statusExitCode (agentStatus "AG_1" [⟨[]⟩]) = none :=
  have h := c10_vacuous_healthy_panics "AG_1" ⟨[]⟩ [] rfl
    (by
      intro ag hag dep hdep
      simp at hag
      subst hag
      simp at hdep)
  ⟨h.2.1, h.2.2⟩

end DeployAction

